import Mathlib

/-!
# AIRankGenie — verification of the core tracking workflow

Shallow embedding, in Lean 4, of the core algorithmic content of the
AIRankGenie repository:

* URL normalization (`normalizeUrl` from `src/api/track.ts` lines 53-60,
  identical copies in the second handler variant and `src/unnamed/part_009`);
* the mode-specific provider-payload parsing of the batch tracking handler
  (`src/api/track.ts`), including the `google_ai_mode` branch;
* the token-bucket `RateLimiter` of
  `src/src/services/trackingService.ts` lines 320-353;
* the async poll loop `pollUntilComplete` (lines 555-619), the orchestrator
  `runAsyncWorkflow` (lines 676-711), ticket creation `startAsyncSearches`
  (lines 415-490) with the `/api/start` handler (`src/api/start.ts`), and
  `createJob` (lines 625-670).

JS `Date.now()` timestamps are modelled as `Nat` milliseconds; `Math.floor`
of a nonnegative division is `Nat` division; `null`/`undefined` become
`Option`; JS string falsiness (`undefined` and `""` are falsy) is modelled
explicitly.  Theorems about each claim follow the definitions.
-/

namespace AIRankGenie

/-! ## URL normalization (`normalizeUrl`, src/api/track.ts lines 53-60)

The JS function is

```
const normalizeUrl = (url: string): string => {
  try {
    const parsed = new URL(url.startsWith('http') ? url : `https://${url}`);
    return parsed.hostname.replace(/^www\./, '');
  } catch {
    return url.replace(/^(https?:\/\/)?(www\.)?/, '').split('/')[0];
  }
};
```

We model the WHATWG `new URL(...).hostname` computation for absolute URLs:
scheme parsing, skipping of the authority slashes, authority delimited by
`/`, `?`, `#`, user-info before the last `@`, host/port split at `:`,
rejection of forbidden host code points and of non-numeric or out-of-range
ports, and ASCII lower-casing of the host.  (IPv6 bracket hosts and percent
decoding are not modelled; inputs using them fall to the failure branch.)
-/

/-- ASCII lower-casing of one character, as applied by the WHATWG URL host
parser (only `A`-`Z` change). -/
def lowerChar (c : Char) : Char :=
  if 65 ≤ c.toNat ∧ c.toNat ≤ 90 then Char.ofNat (c.toNat + 32) else c

/-- Forbidden host code points of the WHATWG URL standard (plus `%`, which is
forbidden in domains): controls and space, `#`, `%`, `/`, `:`, `<`, `>`, `?`,
`@`, `[`, `\`, `]`, `^`, `|`. -/
def forbiddenHostChar (c : Char) : Bool :=
  c.toNat < 33 || c.toNat == 35 || c.toNat == 37 || c.toNat == 47 ||
  c.toNat == 58 || c.toNat == 60 || c.toNat == 62 || c.toNat == 63 ||
  c.toNat == 64 || (91 ≤ c.toNat && c.toNat ≤ 94) || c.toNat == 124

/-- First character allowed in a URL scheme. -/
def isSchemeStart (c : Char) : Bool := c.isAlpha

/-- Non-first characters allowed in a URL scheme. -/
def isSchemeChar (c : Char) : Bool :=
  c.isAlpha || c.isDigit || c == '+' || c == '-' || c == '.'

/-- The part of `l` after the last `@` (the whole list when `@` is absent);
used for stripping URL user-info from the authority. -/
def afterLastAt (l : List Char) : List Char :=
  (l.reverse.takeWhile (fun c => c != '@')).reverse

/-- Numeric value of a digit string (used for the URL port range check). -/
def digitsVal (l : List Char) : Nat :=
  l.foldl (fun a c => a * 10 + (c.toNat - 48)) 0

/-- ASCII digit. -/
def isDigitChar (c : Char) : Bool := 48 ≤ c.toNat && c.toNat ≤ 57

/-- ASCII hex digit (`0-9`, `a-f`, `A-F`). -/
def isHexDigitChar (c : Char) : Bool :=
  isDigitChar c || (97 ≤ c.toNat && c.toNat ≤ 102) || (65 ≤ c.toNat && c.toNat ≤ 70)

/-- ASCII octal digit. -/
def isOctalDigitChar (c : Char) : Bool := 48 ≤ c.toNat && c.toNat ≤ 55

/-- Value of a hex-digit string. -/
def hexVal (l : List Char) : Nat :=
  l.foldl (fun a c => a * 16 +
    (if c.toNat ≤ 57 then c.toNat - 48
     else if c.toNat ≤ 70 then c.toNat - 55 else c.toNat - 87)) 0

/-- Value of an octal-digit string. -/
def octVal (l : List Char) : Nat :=
  l.foldl (fun a c => a * 8 + (c.toNat - 48)) 0

/-- Split a host on `.` (WHATWG domain labels); the empty list yields one
empty label, mirroring string splitting. -/
def splitOnDot : List Char → List (List Char)
  | [] => [[]]
  | c :: rest =>
    match splitOnDot rest with
    | [] => [[c]]
    | hd :: tl => if c == '.' then [] :: hd :: tl else (c :: hd) :: tl

/-- The segment of `l` after its last `.` (the whole list when `.` is
absent) — the last domain label. -/
def lastLabel (l : List Char) : List Char :=
  (l.reverse.takeWhile (fun c => c != '.')).reverse

/-- The WHATWG "IPv4 number" shapes a label may take for the
ends-in-a-number check: all ASCII digits, or `0x`/`0X` followed by hex
digits (possibly none). -/
def labelIsNumber (lab : List Char) : Bool :=
  (!lab.isEmpty && lab.all isDigitChar) ||
  (("0x".toList.isPrefixOf lab || "0X".toList.isPrefixOf lab)
    && (lab.drop 2).all isHexDigitChar)

/-- WHATWG "ends in a number": computed on the ASCII (lower-cased) domain,
on the last label, skipping one trailing empty label (trailing dot). -/
def hostEndsInNumber (host : List Char) : Bool :=
  let hl := host.map lowerChar
  let trimmed := if hl.getLast? = some '.' then hl.dropLast else hl
  labelIsNumber (lastLabel trimmed)

/-- The WHATWG IPv4 number parser for one dotted part: hex after `0x`/`0X`,
octal after a leading `0`, decimal otherwise; `none` is failure. -/
def ipv4NumberVal (part : List Char) : Option Nat :=
  if part = [] then none
  else if "0x".toList.isPrefixOf part || "0X".toList.isPrefixOf part then
    let rest := part.drop 2
    if rest.all isHexDigitChar then some (hexVal rest) else none
  else if part.length ≥ 2 ∧ part.headD ' ' = '0' then
    let rest := part.drop 1
    if rest.all isOctalDigitChar then some (octVal rest) else none
  else if part.all isDigitChar then some (digitsVal part) else none

/-- Parse every dotted part, failing if any part fails. -/
def ipv4Vals : List (List Char) → Option (List Nat)
  | [] => some []
  | p :: rest =>
    match ipv4NumberVal p, ipv4Vals rest with
    | some v, some vs => some (v :: vs)
    | _, _ => none

/-- Fold the non-final parts into the IPv4 value: part `n` contributes
`value · 256 ^ (3 - n)`. -/
def ipv4Combine : Nat → Nat → List Nat → Nat
  | acc, _, [] => acc
  | acc, n, v :: rest => ipv4Combine (acc + v * 256 ^ (3 - n)) (n + 1) rest

/-- The WHATWG IPv4 parser on the ASCII domain: at most 4 parts (one
trailing empty part from a trailing dot is dropped), every part a valid
IPv4 number, non-final parts below 256, the final part below
`256^(5 - count)`; returns the 32-bit address value. -/
def parseIPv4 (host : List Char) : Option Nat :=
  let parts0 := splitOnDot host
  let parts := if parts0.getLast? = some [] ∧ parts0.length > 1
               then parts0.dropLast else parts0
  if parts.length > 4 then none
  else
    match ipv4Vals parts with
    | none => none
    | some vals =>
      if vals = [] then none
      else if vals.dropLast.all (fun x => x < 256)
          ∧ vals.getLastD 0 < 256 ^ (5 - vals.length) then
        some (ipv4Combine (vals.getLastD 0) 0 vals.dropLast)
      else none

/-- Decimal digit string of `m` (fuel-indexed; `fuel = m + 1` suffices). -/
def decimalDigitsAux : Nat → Nat → List Char
  | 0, _ => []
  | fuel + 1, m =>
    if m < 10 then [Char.ofNat (48 + m)]
    else decimalDigitsAux fuel (m / 10) ++ [Char.ofNat (48 + m % 10)]

/-- Decimal digit string of `n`. -/
def decimalDigits (n : Nat) : List Char := decimalDigitsAux (n + 1) n

/-- WHATWG IPv4 serialization: the four bytes, most significant first,
dot-separated in decimal. -/
def serializeIPv4 (v : Nat) : List Char :=
  decimalDigits (v / 16777216 % 256) ++ '.' ::
  (decimalDigits (v / 65536 % 256) ++ '.' ::
  (decimalDigits (v / 256 % 256) ++ '.' :: decimalDigits (v % 256)))

/-- Model of JS `new URL(s).hostname` for an absolute URL string `s`:
`none` models the constructor throwing.  Special-scheme hosts follow the
WHATWG host parser: forbidden code points and bad ports throw; a domain
whose last label ends in a number is handed to the IPv4 parser (throwing
when it is not a valid IPv4 address); other domains are ASCII
lower-cased.  (IPv6 bracket hosts, percent decoding and non-ASCII IDNA
processing are not modelled.) -/
def urlHostnameL (l : List Char) : Option (List Char) :=
  let scheme := l.takeWhile (fun c => c != ':')
  let rest := l.dropWhile (fun c => c != ':')
  match rest with
  | [] => none
  | _ :: afterColon =>
    if scheme = [] then none
    else if ¬ (isSchemeStart (scheme.headD 'a') ∧ scheme.all isSchemeChar) then none
    else
      let schemeLower := scheme.map lowerChar
      if schemeLower = "http".toList ∨ schemeLower = "https".toList then
        let afterSlashes := afterColon.dropWhile (fun c => c == '/')
        let authority := afterSlashes.takeWhile
          (fun c => c != '/' && c != '?' && c != '#')
        let hostPort := afterLastAt authority
        let host := hostPort.takeWhile (fun c => c != ':')
        let port := (hostPort.dropWhile (fun c => c != ':')).drop 1
        if host = [] then none
        else if host.any forbiddenHostChar then none
        else if ¬ (port.all Char.isDigit ∧ digitsVal port ≤ 65535) then none
        else if hostEndsInNumber host then
          match parseIPv4 (host.map lowerChar) with
          | some v => some (serializeIPv4 v)
          | none => none
        else some (host.map lowerChar)
      else
        -- non-special scheme: the URL parses with an opaque path and an
        -- empty hostname
        some []

/-- `host.replace(/^www\./, '')` — strip one leading `www.`. -/
def stripWWW (l : List Char) : List Char :=
  if "www.".toList.isPrefixOf l then l.drop 4 else l

/-- The fallback branch
`url.replace(/^(https?:\/\/)?(www\.)?/, '').split('/')[0]`. -/
def fallbackNormalizeL (l : List Char) : List Char :=
  let l1 := if "https://".toList.isPrefixOf l then l.drop 8
            else if "http://".toList.isPrefixOf l then l.drop 7
            else l
  let l2 := if "www.".toList.isPrefixOf l1 then l1.drop 4 else l1
  l2.takeWhile (fun c => c != '/')

/-- Embedding of `normalizeUrl` (src/api/track.ts lines 53-60) on character
lists. -/
def normalizeUrlL (url : List Char) : List Char :=
  let candidate := if "http".toList.isPrefixOf url then url
                   else "https://".toList ++ url
  match urlHostnameL candidate with
  | some host => stripWWW host
  | none => fallbackNormalizeL url

/-- Embedding of `normalizeUrl` (src/api/track.ts lines 53-60). -/
def normalizeUrl (url : String) : String :=
  ⟨normalizeUrlL url.toList⟩

example : normalizeUrl "https://www.Example.com/page" = "example.com" := by decide
example : normalizeUrl "example.com" = "example.com" := by decide
example : normalizeUrl "www.www.foo.com" = "www.foo.com" := by decide
example : normalizeUrl "HTTPS://www.example.com" = "https" := by decide
example : normalizeUrl "httpFOO.com" = "httpFOO.com" := by decide
example : normalizeUrl "http://user@Ex.com:8080/a/b" = "ex.com" := by decide
example : normalizeUrl "EXAMPLE.123" = "EXAMPLE.123" := by decide
example : normalizeUrl "example.123" = "example.123" := by decide
example : normalizeUrl "https://127.0.0.1/a" = "127.0.0.1" := by decide
example : normalizeUrl "https://0x7f.1" = "127.0.0.1" := by decide
example : normalizeUrl "https://123" = "0.0.0.123" := by decide
example : normalizeUrl "https://example.com./x" = "example.com." := by decide

/-! ## Provider payload parsing (the `/api/track` handlers)

`src/api/track.ts` holds two handler variants.  The first (lines 62-208)
parses every mode the same way: rank from `organic_results` with two-sided
substring matching of normalized hosts, `aiOverview.present = !!data.ai_overview`.
The second (lines 222-388, mirrored by `src/unnamed/part_009`) dispatches on
`searchMode`; its `google_ai_mode` branch (lines 316-328) sets
`isAiPresent = true` unconditionally and ranks by citation order over
`data.sources || data.references || []`.
-/

/-- JS substring test `s.includes(sub)` on character lists. -/
def includesSub (s sub : List Char) : Bool :=
  (List.range (s.length + 1)).any (fun i => sub.isPrefixOf (s.drop i))

/-- JS string-truthiness: `undefined`/absent and `""` are falsy; a truthy
string passes through (models `a || b` chains over optional strings). -/
def jsTruthy (s : Option String) : Option String :=
  match s with
  | some t => if t = "" then none else some t
  | none => none

/-- One entry of `data.organic_results`. -/
structure Organic where
  position : Nat
  title : Option String
  link : Option String
  snippet : Option String
deriving DecidableEq

/-- One entry of `data.sources` / `data.references` (AI-mode citations). -/
structure SourceItem where
  title : Option String
  link : Option String
  snippet : Option String
deriving DecidableEq

/-- The `data.ai_overview` object. -/
structure AIOverviewData where
  snippet : Option String
  text_blocks : Option (List (Option String))
  answer : Option String
deriving DecidableEq

/-- The provider payload fields read by the handlers.  `text_blocks` at the
top level is the field read by the `google_ai_mode` branch
(`data.text_blocks?.[0]?.snippet`); `featureKeys` models which of the ten
SERP-feature keys of `mapSerpFeatures` are truthy on the raw JSON object. -/
structure Payload where
  organic_results : Option (List Organic)
  ai_overview : Option AIOverviewData
  text_blocks : Option (List (Option String))
  sources : Option (List SourceItem)
  references : Option (List SourceItem)
  featureKeys : List String
deriving DecidableEq

/-- A competitor row as assembled by the handlers. -/
structure Competitor where
  rank : Nat
  title : String
  url : String
  snippet : String
deriving DecidableEq

/-- The feature-key → label table of `mapSerpFeatures`
(src/api/track.ts lines 4-25). -/
def featureMap : List (String × String) :=
  [("ai_overview", "AI Overview"), ("featured_snippet", "Featured Snippet"),
   ("people_also_ask", "People Also Ask"), ("knowledge_panel", "Knowledge Panel"),
   ("local_results", "Local Pack"), ("top_stories", "Top Stories"),
   ("video_results", "Videos"), ("image_results", "Images"),
   ("shopping_results", "Shopping"), ("sitelinks", "Sitelinks")]

/-- Embedding of `mapSerpFeatures` (src/api/track.ts lines 4-25). -/
def mapSerpFeatures (data : Payload) : List String :=
  (featureMap.filter (fun p => data.featureKeys.contains p.1)).map (·.2)

/-- Rank detection of the first handler variant (src/api/track.ts lines
132-143): first organic entry with a truthy `link` whose normalized host
contains, or is contained in, the normalized target. -/
def findRank (organic : List Organic) (normalizedTarget : String) : Option Nat :=
  match organic with
  | [] => none
  | item :: rest =>
    match jsTruthy item.link with
    | some l =>
      let itemDomain := normalizeUrl l
      if includesSub itemDomain.toList normalizedTarget.toList
         || includesSub normalizedTarget.toList itemDomain.toList then
        some item.position
      else findRank rest normalizedTarget
    | none => findRank rest normalizedTarget

/-- The `aiOverview` record built by the first handler variant
(src/api/track.ts lines 146-153): `present = !!data.ai_overview`, content from
the `snippet || text_blocks.map(b => b.snippet).join(' ') || answer ||
"AI Overview detected"` chain. -/
def aiOverviewOf (data : Payload) : Bool × Option String :=
  let content :=
    (jsTruthy (data.ai_overview.bind (·.snippet))).orElse fun _ =>
    (jsTruthy (data.ai_overview.bind (·.text_blocks) |>.map
      (fun bs => String.intercalate " " (bs.map (·.getD ""))))).orElse fun _ =>
    (jsTruthy (data.ai_overview.bind (·.answer))).orElse fun _ =>
    (if data.ai_overview.isSome then some "AI Overview detected" else none)
  (data.ai_overview.isSome, content)

/-- Competitor extraction of the first handler variant
(src/api/track.ts lines 156-161): first 5 organic entries. -/
def competitorsOf (organic : List Organic) : List Competitor :=
  (organic.take 5).map (fun c =>
    { rank := c.position
      title := (jsTruthy c.title).getD "Untitled"
      url := (jsTruthy c.link).getD ""
      snippet := (jsTruthy c.snippet).getD "" })

/-! ### The `google_ai_mode` branch of the second handler variant
(src/api/track.ts lines 316-328; `src/unnamed/part_009` lines 134-146). -/

/-- Result of the AI-mode parse: rank, the unconditional present flag, the
AI text, and the citation competitors. -/
structure AiModeParse where
  rank : Option Nat
  isAiPresent : Bool
  aiContent : String
  competitors : List Competitor
deriving DecidableEq

/-- Rank from citation order: the `sources.forEach` loop overwrites `rank`
on every match, so the last matching citation index + 1 wins. -/
def aiModeRank (sources : List SourceItem) (normalizedTarget : String) : Option Nat :=
  sources.enum.foldl
    (fun acc p =>
      match jsTruthy p.2.link with
      | some l =>
        if includesSub (normalizeUrl l).toList normalizedTarget.toList then
          some (p.1 + 1)
        else acc
      | none => acc)
    none

/-- Embedding of the `google_ai_mode` branch (src/api/track.ts lines
316-328): `isAiPresent = true` unconditionally,
`aiContent = data.text_blocks?.[0]?.snippet || data.ai_overview?.snippet ||
"Generative AI Result"`, citations from `data.sources || data.references
|| []` (an empty array is truthy in JS, so empty `sources` does not fall
through to `references`). -/
def parseAiMode (data : Payload) (normalizedTarget : String) : AiModeParse :=
  let aiContent :=
    ((jsTruthy (data.text_blocks.bind (fun tb => tb.headD none))).orElse fun _ =>
     (jsTruthy (data.ai_overview.bind (·.snippet)))).getD "Generative AI Result"
  let sources := (data.sources.orElse fun _ => data.references).getD []
  { rank := aiModeRank sources normalizedTarget
    isAiPresent := true
    aiContent := aiContent
    competitors := sources.enum.map (fun p =>
      { rank := p.1 + 1
        title := (jsTruthy p.2.title).getD ""
        url := (jsTruthy p.2.link).getD ""
        snippet := (jsTruthy p.2.snippet).getD "" }) }

/-! ### Per-query processing of the first handler variant
(src/api/track.ts lines 93-204) -/

/-- Outcome of the provider fetch for one query: HTTP error (`!serpRes.ok`,
lines 115-126), a thrown error anywhere in the `try` (lines 192-203), or a
parsed JSON payload. -/
inductive FetchOutcome
  | ok (data : Payload)
  | httpError
  | thrown
deriving DecidableEq

/-- The canonical per-keyword result record assembled by the handler (the
randomized mock `history` field is not modelled). -/
structure TrackResult where
  query : String
  rank : Option Nat
  url : String
  present : Bool
  content : Option String
  analysis : Option String
  serpFeatures : List String
  competitors : List Competitor
deriving DecidableEq

/-- Embedding of the per-query body of the first handler variant
(src/api/track.ts lines 93-204).  `gem` is the text-generation collaborator:
`Except.error` models `model.generateContent` throwing, in which case the
`catch` leaves `analysis` at the sentinel `"Analysis unavailable."`
(lines 163-180). -/
def processQuery (geminiKey : Bool) (gem : Except String String)
    (fetch : FetchOutcome) (query targetUrl : String) : TrackResult :=
  let fallback : TrackResult :=
    { query := query, rank := none, url := targetUrl, present := false
      content := none, analysis := none, serpFeatures := [], competitors := [] }
  match fetch with
  | .httpError => fallback
  | .thrown => fallback
  | .ok data =>
    let normalizedTarget := normalizeUrl targetUrl
    let organic := data.organic_results.getD []
    let rank := findRank organic normalizedTarget
    let ov := aiOverviewOf data
    let analysis :=
      if geminiKey then
        match gem with
        | .ok t => t
        | .error _ => "Analysis unavailable."
      else "Analysis unavailable."
    { query := query
      rank := rank
      url := targetUrl
      present := ov.1
      content := ov.2
      analysis := some analysis
      serpFeatures := mapSerpFeatures data
      competitors := competitorsOf organic }

/-- Embedding of the whole-request processing (src/api/track.ts lines
93-204): `Promise.all(queries.map(...))` preserves the order of `queries`,
and every per-query failure is caught inside the mapped closure. -/
def handlerResults (geminiKey : Bool) (gem : String → Except String String)
    (fetch : String → FetchOutcome) (queries : List String)
    (targetUrl : String) : List TrackResult :=
  queries.map (fun q => processQuery geminiKey (gem q) (fetch q) q targetUrl)

/-! ## The `RateLimiter` token bucket
(src/src/services/trackingService.ts lines 320-353)

```
async acquire(): Promise<void> {
  const now = Date.now();
  const elapsed = now - this.lastRefill;
  const tokensToAdd = Math.floor(elapsed / (60000 / this.refillRate));
  if (tokensToAdd > 0) {
    this.tokens = Math.min(this.maxTokens, this.tokens + tokensToAdd);
    this.lastRefill = now;
  }
  if (this.tokens <= 0) {
    const waitTime = (60000 / this.refillRate) - (now - this.lastRefill);
    await new Promise(resolve => setTimeout(resolve, waitTime));
    this.tokens = 1;
  }
  this.tokens--;
}
```

The model returns, besides the new bucket state, the wall-clock time at
which the call completes (for an uncontended caller: `now` itself, or
`now + waitTime` after the sleep).  Note the code does **not** advance
`lastRefill` when it grants the token after the sleep.
-/

/-- The mutable fields of `RateLimiter`. -/
structure RLState where
  tokens : Nat
  lastRefill : Nat
deriving DecidableEq

/-- Refill interval `60000 / refillRate` in milliseconds. -/
def refillIntervalMs (refillRate : Nat) : Nat := 60000 / refillRate

/-- Embedding of `RateLimiter.acquire` called at wall-clock time `now`;
returns the state after the call and the completion time of the call. -/
def acquire (maxTokens refillRate : Nat) (s : RLState) (now : Nat) :
    RLState × Nat :=
  let elapsed := now - s.lastRefill
  let tokensToAdd := elapsed / refillIntervalMs refillRate
  let tokens := if tokensToAdd > 0 then min maxTokens (s.tokens + tokensToAdd)
                else s.tokens
  let lastRefill := if tokensToAdd > 0 then now else s.lastRefill
  if tokens = 0 then
    -- waitTime = interval - (now - lastRefill); tokens := 1 then tokens--
    let fin := now + (refillIntervalMs refillRate - (now - lastRefill))
    ({ tokens := 0, lastRefill := lastRefill }, fin)
  else
    ({ tokens := tokens - 1, lastRefill := lastRefill }, now)

/-- Completion times of `n` consecutive `acquire()` calls (each call issued
the moment the previous one completes), starting from state `s` at time
`now`. -/
def runAcquires (maxTokens refillRate : Nat) :
    Nat → RLState → Nat → List Nat
  | 0, _, _ => []
  | n + 1, s, now =>
    let r := acquire maxTokens refillRate s now
    r.2 :: runAcquires maxTokens refillRate n r.1 r.2

/-- `CONFIG.REQUESTS_PER_MINUTE` (src/src/services/trackingService.ts line
309): the process-wide bucket is `new RateLimiter(30, 30)`. -/
def REQUESTS_PER_MINUTE : Nat := 30

/-! ## The async poll loop `pollUntilComplete`
(src/src/services/trackingService.ts lines 555-619)

With `CHECK_BATCH_SIZE = 1` each poll round checks every pending task
individually; `checkAndUpdateResult` writes `processing_status` `'complete'`
or `'failed'` and reports the task resolved (`true`), or reports `false`
(still processing / transient check error) leaving the ticket pending.
After each singleton batch the job progress is recomputed as
`Math.round(((total - pending.length) + resolvedSoFarThisRound) / total * 100)`.
A round whose start time exceeds `MAX_POLL_TIME` force-fails every pending
ticket and stops.  An abstract `oracle : round → taskId → CheckOutcome`
stands for the provider's answers.
-/

/-- `CONFIG.MAX_POLL_TIME` (line 306): 3 minutes. -/
def MAX_POLL_TIME : Nat := 180000

/-- `CONFIG.CHECK_INTERVAL` (line 305): 3 seconds between poll rounds. -/
def CHECK_INTERVAL : Nat := 3000

/-- What one `checkAndUpdateResult` call observes for one ticket:
the provider finished with a result, is still computing (or the check
errored transiently), or reported failure. -/
inductive CheckOutcome
  | complete
  | stillProcessing
  | failed
deriving DecidableEq

/-- Did the check resolve the ticket (remove it from the pending set)? -/
def resolvedBool (o : CheckOutcome) : Bool :=
  match o with
  | .stillProcessing => false
  | _ => true

/-- `Math.round((completed / total) * 100)` on naturals:
`⌊(100·c/t) + 1/2⌋ = (200·c + t) / (2·t)`. -/
def progressOf (total completed : Nat) : Nat :=
  (200 * completed + total) / (2 * total)

/-- The progress values written during one poll round, one after each
singleton check batch (src/src/services/trackingService.ts lines 598-603):
`c` resolutions counted so far in this round, `base` tickets resolved in
earlier rounds. -/
def roundLogAux (total base c : Nat) : List Bool → List Nat
  | [] => []
  | b :: rest =>
    let c' := c + (if b then 1 else 0)
    progressOf total (base + c') :: roundLogAux total base c' rest

/-- The poll-loop state: still-pending task ids, resolved tickets with their
terminal `processing_status` (`true` = `'complete'`, `false` = `'failed'`),
the elapsed wall-clock lower bound (the inter-round sleeps), the round
counter, and every progress value written so far. -/
structure PollState where
  pending : List Nat
  terminal : List (Nat × Bool)
  elapsed : Nat
  round : Nat
  progressLog : List Nat
deriving DecidableEq

/-- One poll round over the current pending set (lines 577-617): check every
pending ticket, record the terminal writes, drop resolved tickets from the
pending set, log the per-batch progress writes, and account the
`CHECK_INTERVAL` sleep before the next round. -/
def roundStep (oracle : Nat → Nat → CheckOutcome) (total : Nat)
    (st : PollState) : PollState :=
  let outsB := st.pending.map (fun t => resolvedBool (oracle st.round t))
  { pending := st.pending.filter (fun t => !resolvedBool (oracle st.round t))
    terminal := st.terminal ++ st.pending.filterMap (fun t =>
      match oracle st.round t with
      | .complete => some (t, true)
      | .failed => some (t, false)
      | .stillProcessing => none)
    elapsed := st.elapsed + CHECK_INTERVAL
    round := st.round + 1
    progressLog := st.progressLog ++
      roundLogAux total (total - st.pending.length) 0 outsB }

/-- The poll loop (lines 564-618) as fuel-indexed rounds: stop when nothing
is pending; if the elapsed time exceeds `MAX_POLL_TIME`, force-fail every
pending ticket and stop; otherwise run one round.  The fuel is the round
bound implied by the time ceiling (each further round costs
`CHECK_INTERVAL`). -/
def pollRounds (oracle : Nat → Nat → CheckOutcome) (total : Nat) :
    Nat → PollState → PollState
  | 0, st => st
  | fuel + 1, st =>
    if st.pending = [] then st
    else if st.elapsed > MAX_POLL_TIME then
      { st with pending := []
                terminal := st.terminal ++ st.pending.map (fun t => (t, false)) }
    else pollRounds oracle total fuel (roundStep oracle total st)

/-- Rounds afforded by the wall-clock ceiling: `MAX_POLL_TIME / CHECK_INTERVAL`
rounds fit below the ceiling, plus the round that trips it and the timeout
pass. -/
def MAX_ROUNDS : Nat := MAX_POLL_TIME / CHECK_INTERVAL + 2

/-- The initial poll state for a freshly started ticket set. -/
def initPollState (tasks : List Nat) : PollState :=
  { pending := tasks, terminal := [], elapsed := 0, round := 0, progressLog := [] }

/-- Embedding of `pollUntilComplete(tasks, targetUrl, jobId)`
(src/src/services/trackingService.ts lines 555-619). -/
def pollUntilComplete (oracle : Nat → Nat → CheckOutcome)
    (tasks : List Nat) : PollState :=
  pollRounds oracle tasks.length MAX_ROUNDS (initPollState tasks)

/-! ## Ticket creation and the workflow orchestrator
(src/src/services/trackingService.ts lines 415-490, 625-711;
src/api/start.ts)
-/

/-- Embedding of the `/api/start` handler for one query (src/api/start.ts):
a missing `SERP_API_KEY` is rejected with a 500 before any search is
launched; otherwise `launchOk` abstracts whether the provider's async
launch (and the subsequent DB insert) succeeded for this query. -/
def startHandlerOk (apiKeyPresent : Bool) (launchOk : Nat → Bool)
    (q : Nat) : Bool :=
  apiKeyPresent && launchOk q

/-- Embedding of `startAsyncSearches` (lines 415-490) with
`START_BATCH_SIZE = 1`: each query is started in its own batch; a failed
batch is logged and skipped ("Continue with remaining batches"), so the
returned ticket list keeps exactly the queries whose start succeeded. -/
def startAsyncSearches (apiKeyPresent : Bool) (launchOk : Nat → Bool)
    (queries : List Nat) : List Nat :=
  queries.filter (startHandlerOk apiKeyPresent launchOk)

/-- The observable outcome of `runAsyncWorkflow`: the job's final status
string, every job progress value written (in write order), and the terminal
ticket statuses. -/
structure WorkflowResult where
  status : String
  progressUpdates : List Nat
  tickets : List (Nat × Bool)
deriving DecidableEq

/-- Embedding of `runAsyncWorkflow` (lines 676-711): set the job
`'processing'` at progress 0, start the searches, throw (→ catch → status
`'failed'`) when no tasks were created, otherwise poll to completion and
unconditionally mark the job `'completed'` at progress 100. -/
def runAsyncWorkflow (apiKeyPresent : Bool) (launchOk : Nat → Bool)
    (oracle : Nat → Nat → CheckOutcome) (queries : List Nat) : WorkflowResult :=
  let tasks := startAsyncSearches apiKeyPresent launchOk queries
  if tasks = [] then
    { status := "failed", progressUpdates := [0], tickets := [] }
  else
    let final := pollUntilComplete oracle tasks
    { status := "completed"
      progressUpdates := 0 :: final.progressLog ++ [100]
      tickets := final.terminal }

/-- Embedding of `createJob` (lines 625-670): validate the keyword count,
insert the job row (`dbOk` abstracts the database insert succeeding), fire
the workflow without awaiting it, and return the job.  `none` models the
`catch` branch returning `null`.  The provider credential is *not*
consulted here. -/
def createJob (dbOk : Bool) (queries : List Nat) : Option (List Nat) :=
  if queries.length > 5 then none
  else if queries.length = 0 then none
  else if dbOk then some queries else none

/-! ## Claim C1 — terminal status of a mixed outcome -/

/-- A provider behaviour that resolves ticket 0 successfully and fails
ticket 1 in the first poll round. -/
def mixedOracle : Nat → Nat → CheckOutcome :=
  fun _ t => if t = 0 then CheckOutcome.complete else CheckOutcome.failed

/-- C1.  `runAsyncWorkflow` reports a job whose terminal ticket set is a
mix of one successful and one failed ticket as `"completed"`: the
orchestrator (src/src/services/trackingService.ts lines 676-711) marks the
job `'completed'` unconditionally once at least one ticket was created and
polling ended, so the `partial` status required by the claim for mixed
outcomes is never assigned. -/
theorem c1_mixed_outcome_reported_completed :
    (runAsyncWorkflow true (fun _ => true) mixedOracle [0, 1]).status
        = "completed"
    ∧ (0, true) ∈ (runAsyncWorkflow true (fun _ => true) mixedOracle [0, 1]).tickets
    ∧ (1, false) ∈ (runAsyncWorkflow true (fun _ => true) mixedOracle [0, 1]).tickets := by
  refine ⟨rfl, ?_, ?_⟩ <;> decide

/-! ## Claim C2 — AI-panel `present` on a payload with no AI content -/

/-- A payload holding one organic result and no AI-answer content at all:
no AI snippet, no sources, no references, no text blocks. -/
def organicOnlyPayload : Payload :=
  { organic_results := some [{ position := 1, title := some "Other",
                               link := some "https://other.com", snippet := some "s" }]
    ai_overview := none
    text_blocks := none
    sources := none
    references := none
    featureKeys := [] }

/-- C2.  The `google_ai_mode` branch (src/api/track.ts lines 316-328,
src/unnamed/part_009 lines 134-146) sets `isAiPresent = true`
unconditionally, so parsing a payload that has organic results but no
AI-answer content yields `present = true`, not the `false` the claim
requires. -/
theorem c2_ai_mode_present_unconditionally_true :
    (parseAiMode organicOnlyPayload "example.com").isAiPresent = true
    ∧ (parseAiMode organicOnlyPayload "example.com").aiContent
        = "Generative AI Result" := by
  exact ⟨rfl, rfl⟩

/-! ## Claim C3 — rate limiter rolling-window bound -/

/-- C3.  60 = 2·N consecutive `acquire()` calls against the process-wide
bucket (`capacity N = 30`, refill `N` per 60 s), started on a full bucket at
time 0, all complete within 30000 ms: after the initial burst of `N`, the
missing `lastRefill` update in the sleep branch lets each refill interval
admit two calls.  Hence 60 > N admissions fall inside a single rolling
60-second window, and the 2·N calls take about 30 s, not the claimed
≥ 60 s. -/
theorem c3_rate_limiter_window_violated :
    (runAcquires REQUESTS_PER_MINUTE REQUESTS_PER_MINUTE 60
        { tokens := 30, lastRefill := 0 } 0).length = 2 * REQUESTS_PER_MINUTE
    ∧ (runAcquires REQUESTS_PER_MINUTE REQUESTS_PER_MINUTE 60
        { tokens := 30, lastRefill := 0 } 0).all (fun t => t ≤ 30000) = true
    ∧ 2 * REQUESTS_PER_MINUTE > REQUESTS_PER_MINUTE
    ∧ 30000 < 60000 := by
  refine ⟨?_, ?_, ?_, ?_⟩ <;> decide

/-! ## Claim C6 — missing provider credential at job creation -/

/-- C6 counterexample.  With the SERP API key missing, `createJob`
(src/src/services/trackingService.ts lines 625-670) still succeeds — it
never consults the credential — and returns the job; only the detached
background workflow later discovers the misconfiguration (every
`/api/start` call is rejected), creates zero tickets, and marks the job
`'failed'`.  So job creation does *not* fail synchronously. -/
theorem c6_counterexample_creation_succeeds_without_key :
    createJob true [0] = some [0]
    ∧ (runAsyncWorkflow false (fun _ => true)
        (fun _ _ => CheckOutcome.complete) [0]).status = "failed"
    ∧ (runAsyncWorkflow false (fun _ => true)
        (fun _ _ => CheckOutcome.complete) [0]).tickets = [] := by
  exact ⟨rfl, rfl, rfl⟩

/-! ## Claim C8 — URL normalization invariance: the failing corner -/

/-- C7.  For every parsed payload, a failure of the text-generation call
changes nothing but the `analysis` field: the Result is still produced, its
rank, AI-panel and competitor data equal those of a successful enrichment
run, and the analysis text is the fixed sentinel `"Analysis unavailable."`
(src/api/track.ts lines 163-180; the same pattern appears at
src/server/index.js lines 91-120). -/
theorem c7_insight_failure_isolated (data : Payload) (q targetUrl gemText e : String) :
    (processQuery true (Except.error e) (FetchOutcome.ok data) q targetUrl).rank
      = (processQuery true (Except.ok gemText) (FetchOutcome.ok data) q targetUrl).rank
    ∧ (processQuery true (Except.error e) (FetchOutcome.ok data) q targetUrl).present
      = (processQuery true (Except.ok gemText) (FetchOutcome.ok data) q targetUrl).present
    ∧ (processQuery true (Except.error e) (FetchOutcome.ok data) q targetUrl).content
      = (processQuery true (Except.ok gemText) (FetchOutcome.ok data) q targetUrl).content
    ∧ (processQuery true (Except.error e) (FetchOutcome.ok data) q targetUrl).competitors
      = (processQuery true (Except.ok gemText) (FetchOutcome.ok data) q targetUrl).competitors
    ∧ (processQuery true (Except.error e) (FetchOutcome.ok data) q targetUrl).serpFeatures
      = (processQuery true (Except.ok gemText) (FetchOutcome.ok data) q targetUrl).serpFeatures
    ∧ (processQuery true (Except.error e) (FetchOutcome.ok data) q targetUrl).query = q
    ∧ (processQuery true (Except.error e) (FetchOutcome.ok data) q targetUrl).analysis
      = some "Analysis unavailable." := by
  exact ⟨rfl, rfl, rfl, rfl, rfl, rfl, rfl⟩

/-! ## Claim C10 — one result per query, in order, with per-query fallback -/

/-- The fallback record returned by the handler's per-query `catch`
(src/api/track.ts lines 192-203). -/
def fallbackResult (q targetUrl : String) : TrackResult :=
  { query := q, rank := none, url := targetUrl, present := false
    content := none, analysis := none, serpFeatures := [], competitors := [] }

/-- C10.  The batch handler returns exactly one result per input query and
in input order (`Promise.all` over `queries.map`), and a query whose
provider lookup throws yields the fallback record — rank `null`,
`present = false`, empty competitor and feature lists — without disturbing
the other queries (src/api/track.ts lines 93-207). -/
theorem c10_batch_order_and_fallback (geminiKey : Bool)
    (gem : String → Except String String) (fetch : String → FetchOutcome)
    (queries : List String) (targetUrl : String) :
    (handlerResults geminiKey gem fetch queries targetUrl).length = queries.length
    ∧ (∀ i : Nat, ((handlerResults geminiKey gem fetch queries targetUrl).get? i).map
          TrackResult.query = queries.get? i)
    ∧ (∀ i : Nat, ∀ q, queries.get? i = some q → fetch q = FetchOutcome.thrown →
        (handlerResults geminiKey gem fetch queries targetUrl).get? i
          = some (fallbackResult q targetUrl)) := by
  have hquery : ∀ (f : FetchOutcome) (g : Except String String) (q t : String),
      (processQuery geminiKey g f q t).query = q := by
    intro f g q t
    cases f <;> rfl
  refine ⟨by simp [handlerResults], ?_, ?_⟩
  · intro i
    simp only [handlerResults, List.get?_map]
    cases h : queries.get? i with
    | none => rfl
    | some q => simp [hquery]
  · intro i q hq hf
    simp only [handlerResults, List.get?_map, hq, Option.map_some']
    simp [processQuery, hf, fallbackResult]

/-- C10 witness: a concrete two-query batch where the second lookup throws;
the response still has two results in input order and the second is the
fallback record. -/
theorem c10_batch_order_and_fallback_witness :
    (["a", "b"] : List String).get? 1 = some "b"
    ∧ (fun q => if q = "b" then FetchOutcome.thrown
                else FetchOutcome.ok organicOnlyPayload) "b" = FetchOutcome.thrown
    ∧ (handlerResults false (fun _ => Except.ok "t")
        (fun q => if q = "b" then FetchOutcome.thrown
                  else FetchOutcome.ok organicOnlyPayload)
        ["a", "b"] "example.com").get? 1 = some (fallbackResult "b" "example.com") := by
  refine ⟨rfl, by decide, ?_⟩
  exact (c10_batch_order_and_fallback false (fun _ => Except.ok "t")
    (fun q => if q = "b" then FetchOutcome.thrown else FetchOutcome.ok organicOnlyPayload)
    ["a", "b"] "example.com").2.2 1 "b" rfl (by decide)

/-! ## Claim C6 — the amended behaviour with a missing credential -/

/-- C6 amended.  With the SERP API key missing, every `/api/start` call is
rejected (configuration error) before any search launches, so zero tickets
are created and the background workflow marks the job `'failed'` — the
credential problem is discovered in the start phase, never mid-poll; but
`createJob` itself still succeeds and returns the job. -/
theorem c6_amended_missing_key (launchOk : Nat → Bool)
    (oracle : Nat → Nat → CheckOutcome) (queries : List Nat)
    (h1 : queries ≠ []) (h2 : queries.length ≤ 5) :
    (∀ q, startHandlerOk false launchOk q = false)
    ∧ startAsyncSearches false launchOk queries = []
    ∧ (runAsyncWorkflow false launchOk oracle queries).status = "failed"
    ∧ (runAsyncWorkflow false launchOk oracle queries).tickets = []
    ∧ (createJob true queries).isSome = true := by
  have hstart : startAsyncSearches false launchOk queries = [] := by
    simp [startAsyncSearches, startHandlerOk]
  refine ⟨fun q => rfl, hstart, ?_, ?_, ?_⟩
  · simp [runAsyncWorkflow, hstart]
  · simp [runAsyncWorkflow, hstart]
  · have hlen : queries.length ≠ 0 := by
      simpa [List.length_eq_zero] using h1
    simp [createJob, hlen, Nat.not_lt.mpr h2]

/-- C6 witness: the amended statement at a concrete one-keyword job. -/
theorem c6_amended_missing_key_witness :
    ([0] : List Nat) ≠ [] ∧ ([0] : List Nat).length ≤ 5
    ∧ startAsyncSearches false (fun _ => true) [0] = []
    ∧ (runAsyncWorkflow false (fun _ => true)
        (fun _ _ => CheckOutcome.complete) [0]).status = "failed"
    ∧ (createJob true [0]).isSome = true := by
  refine ⟨by decide, by decide, ?_, ?_, ?_⟩
  · exact (c6_amended_missing_key (fun _ => true) (fun _ _ => CheckOutcome.complete)
      [0] (by decide) (by decide)).2.1
  · exact (c6_amended_missing_key (fun _ => true) (fun _ _ => CheckOutcome.complete)
      [0] (by decide) (by decide)).2.2.1
  · exact (c6_amended_missing_key (fun _ => true) (fun _ _ => CheckOutcome.complete)
      [0] (by decide) (by decide)).2.2.2.2

/-! ## Claim C4 — the poll loop terminates and resolves every ticket -/

/-- Enough fuel drains the loop: once the accounted sleeps exceed
`MAX_POLL_TIME` the timeout branch force-fails whatever is pending, so with
`f` rounds of budget covering the ceiling the final pending set is empty. -/
theorem pollRounds_pending_nil (oracle : Nat → Nat → CheckOutcome) (total : Nat) :
    ∀ (f : Nat) (st : PollState), MAX_POLL_TIME < st.elapsed + f * CHECK_INTERVAL →
      (pollRounds oracle total (f + 1) st).pending = [] := by
  intro f
  induction f with
  | zero =>
    intro st hf
    simp only [Nat.zero_mul, Nat.add_zero] at hf
    simp only [pollRounds]
    by_cases h1 : st.pending = []
    · simp [h1]
    · simp [h1, hf]
  | succ f ih =>
    intro st hf
    simp only [pollRounds]
    by_cases h1 : st.pending = []
    · simp [h1]
    · by_cases h2 : st.elapsed > MAX_POLL_TIME
      · simp [h1, h2]
      · simp only [h1, h2, if_neg, if_false]
        apply ih
        simp only [roundStep, MAX_POLL_TIME, CHECK_INTERVAL] at *
        omega

/-- The elapsed-time lower bound never exceeds the ceiling plus one round:
rounds only run while `elapsed ≤ MAX_POLL_TIME`. -/
theorem pollRounds_elapsed_le (oracle : Nat → Nat → CheckOutcome) (total : Nat) :
    ∀ (f : Nat) (st : PollState),
      st.elapsed ≤ MAX_POLL_TIME + CHECK_INTERVAL →
      (pollRounds oracle total f st).elapsed ≤ MAX_POLL_TIME + CHECK_INTERVAL := by
  intro f
  induction f with
  | zero => intro st h; simpa [pollRounds] using h
  | succ f ih =>
    intro st h
    simp only [pollRounds]
    by_cases h1 : st.pending = []
    · simpa [h1] using h
    · by_cases h2 : st.elapsed > MAX_POLL_TIME
      · simpa [h1, h2] using h
      · simp only [h1, h2, if_neg, if_false]
        apply ih
        simp only [roundStep]
        omega

/-- Every ticket stays accounted for: a task in the pending set or already
terminal remains pending or becomes terminal after any number of rounds. -/
theorem pollRounds_coverage (oracle : Nat → Nat → CheckOutcome) (total : Nat) :
    ∀ (f : Nat) (st : PollState) (t : Nat),
      (t ∈ st.pending ∨ ∃ b, (t, b) ∈ st.terminal) →
      (t ∈ (pollRounds oracle total f st).pending
        ∨ ∃ b, (t, b) ∈ (pollRounds oracle total f st).terminal) := by
  intro f
  induction f with
  | zero => intro st t h; simpa [pollRounds] using h
  | succ f ih =>
    intro st t h
    simp only [pollRounds]
    by_cases h1 : st.pending = []
    · simpa [h1] using h
    · by_cases h2 : st.elapsed > MAX_POLL_TIME
      · simp only [h1, h2, if_neg, if_true, if_false]
        rcases h with hp | ⟨b, hb⟩
        · exact Or.inr ⟨false, by
            simp only [List.mem_append]
            exact Or.inr (List.mem_map.mpr ⟨t, hp, rfl⟩)⟩
        · exact Or.inr ⟨b, by simp [hb]⟩
      · simp only [h1, h2, if_neg, if_false]
        apply ih
        rcases h with hp | ⟨b, hb⟩
        · by_cases hr : resolvedBool (oracle st.round t) = true
          · refine Or.inr ?_
            cases ho : oracle st.round t with
            | complete =>
              exact ⟨true, by
                simp only [roundStep, List.mem_append]
                exact Or.inr (List.mem_filterMap.mpr ⟨t, hp, by simp [ho]⟩)⟩
            | failed =>
              exact ⟨false, by
                simp only [roundStep, List.mem_append]
                exact Or.inr (List.mem_filterMap.mpr ⟨t, hp, by simp [ho]⟩)⟩
            | stillProcessing => simp [resolvedBool, ho] at hr
          · refine Or.inl ?_
            simp only [roundStep, List.mem_filter]
            exact ⟨hp, by simp [Bool.not_eq_true] at hr ⊢; simp [hr]⟩
        · exact Or.inr ⟨b, by simp [roundStep, hb]⟩

/-- C4.  For every provider behaviour and every started ticket set, the
poll loop terminates with an empty pending set: every ticket reaches a
terminal `processing_status` (`'complete'` or `'failed'`; tickets pending
when the ceiling trips are force-failed), the accounted polling time stays
within `MAX_POLL_TIME + CHECK_INTERVAL`, and the owning job always reaches
a terminal status (the workflow then reports `'completed'`, or `'failed'`
when no ticket was created) — never left `'processing'` forever. -/
theorem c4_poll_loop_terminates (oracle : Nat → Nat → CheckOutcome)
    (tasks : List Nat) :
    (pollUntilComplete oracle tasks).pending = []
    ∧ (∀ t ∈ tasks, ∃ b, (t, b) ∈ (pollUntilComplete oracle tasks).terminal)
    ∧ (pollUntilComplete oracle tasks).elapsed ≤ MAX_POLL_TIME + CHECK_INTERVAL
    ∧ (∀ (key : Bool) (launchOk : Nat → Bool) (queries : List Nat),
        (runAsyncWorkflow key launchOk oracle queries).status = "completed"
        ∨ (runAsyncWorkflow key launchOk oracle queries).status = "failed") := by
  have hfuel : MAX_ROUNDS = 61 + 1 := by decide
  have hnil : (pollUntilComplete oracle tasks).pending = [] := by
    unfold pollUntilComplete
    rw [hfuel]
    exact pollRounds_pending_nil oracle tasks.length 61 (initPollState tasks)
      (by simp [initPollState]; decide)
  refine ⟨hnil, ?_, ?_, ?_⟩
  · intro t ht
    have := pollRounds_coverage oracle tasks.length MAX_ROUNDS (initPollState tasks) t
      (Or.inl (by simpa [initPollState] using ht))
    rcases this with hp | hb
    · rw [show pollRounds oracle tasks.length MAX_ROUNDS (initPollState tasks)
          = pollUntilComplete oracle tasks from rfl, hnil] at hp
      simp at hp
    · exact hb
  · exact pollRounds_elapsed_le oracle tasks.length MAX_ROUNDS (initPollState tasks)
      (by simp [initPollState])
  · intro key launchOk queries
    by_cases h : startAsyncSearches key launchOk queries = []
    · exact Or.inr (by simp [runAsyncWorkflow, h])
    · exact Or.inl (by simp [runAsyncWorkflow, h])

/-- C4 witness: the termination statement applied to a concrete two-ticket
job whose provider never resolves ticket 1 — it is force-failed at the
ceiling and nothing stays pending. -/
theorem c4_poll_loop_terminates_witness :
    (0 : Nat) ∈ ([0, 1] : List Nat)
    ∧ (∃ b, ((0 : Nat), b) ∈ (pollUntilComplete
        (fun _ t => if t = 0 then CheckOutcome.complete
                    else CheckOutcome.stillProcessing) [0, 1]).terminal)
    ∧ (pollUntilComplete
        (fun _ t => if t = 0 then CheckOutcome.complete
                    else CheckOutcome.stillProcessing) [0, 1]).pending = [] := by
  have h := c4_poll_loop_terminates
    (fun _ t => if t = 0 then CheckOutcome.complete
                else CheckOutcome.stillProcessing) [0, 1]
  exact ⟨by decide, h.2.1 0 (by decide), h.1⟩

/-! ## Claim C5 — progress formula, bounds and monotonicity -/

theorem progressOf_mono (t : Nat) {c d : Nat} (h : c ≤ d) :
    progressOf t c ≤ progressOf t d :=
  Nat.div_le_div_right (by omega)

theorem progressOf_zero (t : Nat) : progressOf t 0 = 0 := by
  cases t with
  | zero => rfl
  | succ n =>
    unfold progressOf
    exact Nat.div_eq_of_lt (by omega)

theorem progressOf_le_100 (t : Nat) {c : Nat} (h : c ≤ t) :
    progressOf t c ≤ 100 := by
  cases t with
  | zero =>
    have : c = 0 := by omega
    simp [this, progressOf]
  | succ n =>
    unfold progressOf
    have h2 : 200 * c + (n + 1) < 101 * (2 * (n + 1)) := by omega
    have := (Nat.div_lt_iff_lt_mul (by omega : 0 < 2 * (n + 1))).mpr h2
    omega

theorem progressOf_self (t : Nat) (h : 1 ≤ t) : progressOf t t = 100 := by
  unfold progressOf
  exact Nat.div_eq_of_lt_le (by omega) (by omega)

theorem roundLogAux_chain (total base : Nat) :
    ∀ (outs : List Bool) (c : Nat),
      List.Chain' (· ≤ ·) (roundLogAux total base c outs) := by
  intro outs
  induction outs with
  | nil => intro c; simp [roundLogAux]
  | cons b rest ih =>
    intro c
    simp only [roundLogAux]
    rw [List.chain'_cons']
    refine ⟨?_, ih _⟩
    intro y hy
    cases rest with
    | nil => simp [roundLogAux] at hy
    | cons b2 rest2 =>
      simp only [roundLogAux, List.head?_cons, Option.mem_def, Option.some.injEq] at hy
      subst hy
      exact progressOf_mono total (by omega)

theorem roundLogAux_getLast? (total base : Nat) :
    ∀ (outs : List Bool) (c : Nat), outs ≠ [] →
      (roundLogAux total base c outs).getLast?
        = some (progressOf total (base + c + outs.count true)) := by
  intro outs
  induction outs with
  | nil => intro c h; exact absurd rfl h
  | cons b rest ih =>
    intro c _
    cases rest with
    | nil =>
      simp only [roundLogAux, List.getLast?_singleton]
      refine congrArg some (congrArg (progressOf total) ?_)
      cases b <;> simp [Nat.add_assoc]
    | cons b2 rest2 =>
      simp only [roundLogAux] at ih ⊢
      rw [List.getLast?_cons_cons]
      have := ih (c + if b then 1 else 0) (by simp)
      simp only [roundLogAux] at this
      rw [this]
      refine congrArg some (congrArg (progressOf total) ?_)
      simp only [List.count_cons]
      cases b <;> cases b2 <;> simp <;> omega

theorem roundLogAux_mem (total base : Nat) :
    ∀ (outs : List Bool) (c p : Nat), p ∈ roundLogAux total base c outs →
      ∃ m, m ≤ base + c + outs.count true ∧ p = progressOf total m := by
  intro outs
  induction outs with
  | nil => intro c p h; simp [roundLogAux] at h
  | cons b rest ih =>
    intro c p h
    simp only [roundLogAux, List.mem_cons] at h
    rcases h with rfl | h
    · exact ⟨base + (c + if b then 1 else 0), by
        constructor
        · simp only [List.count_cons]
          cases b <;> simp <;> omega
        · rfl⟩
    · obtain ⟨m, hm, rfl⟩ := ih (c + if b then 1 else 0) p h
      refine ⟨m, ?_, rfl⟩
      simp only [List.count_cons] at hm ⊢
      cases b <;> simp at hm ⊢ <;> omega

theorem roundLogAux_head_le (total base : Nat) (outs : List Bool) (c x : Nat)
    (h : (roundLogAux total base c outs).head? = some x) :
    progressOf total (base + c) ≤ x := by
  cases outs with
  | nil => simp [roundLogAux] at h
  | cons b rest =>
    simp only [roundLogAux, List.head?_cons, Option.some.injEq] at h
    subst h
    exact progressOf_mono total (by omega)

@[simp] theorem resolvedBool_complete :
    resolvedBool CheckOutcome.complete = true := rfl

@[simp] theorem resolvedBool_failed :
    resolvedBool CheckOutcome.failed = true := rfl

@[simp] theorem resolvedBool_still :
    resolvedBool CheckOutcome.stillProcessing = false := rfl

/-- The resolved-count bookkeeping of one round: the new terminal tickets
are exactly the resolved checks, and resolved plus still-pending re-covers
the round's pending set. -/
theorem roundStep_lengths (oracle : Nat → Nat → CheckOutcome) (r : Nat)
    (pending : List Nat) :
    ((pending.filterMap (fun t =>
        match oracle r t with
        | CheckOutcome.complete => some (t, true)
        | CheckOutcome.failed => some (t, false)
        | CheckOutcome.stillProcessing => none)).length
      = (pending.map (fun t => resolvedBool (oracle r t))).count true)
    ∧ ((pending.filter (fun t => !resolvedBool (oracle r t))).length
        + (pending.map (fun t => resolvedBool (oracle r t))).count true
      = pending.length) := by
  induction pending with
  | nil => simp
  | cons hd tl ih =>
    obtain ⟨ih1, ih2⟩ := ih
    cases h : oracle r hd <;>
      simp only [List.filterMap_cons, List.filter_cons, List.map_cons, h,
        List.count_cons, List.length_cons, resolvedBool_complete,
        resolvedBool_failed, resolvedBool_still, Bool.not_true, Bool.not_false,
        if_true, if_false, ite_true, ite_false, ih1] <;>
      simp <;> omega

/-- `roundLogAux` of a non-empty outcome list is non-empty. -/
theorem roundLogAux_ne_nil (total base c : Nat) (outs : List Bool)
    (h : outs ≠ []) : roundLogAux total base c outs ≠ [] := by
  cases outs with
  | nil => exact absurd rfl h
  | cons b rest => simp [roundLogAux]

/-- The invariant carried through the poll loop: ticket conservation, a
monotone progress log, the last logged value dominated by the
resolved-count progress, and every logged value an instance of the
progress formula at some resolved count within the total. -/
def ProgressInv (total : Nat) (st : PollState) : Prop :=
  (st.pending.length + st.terminal.length = total)
  ∧ List.Chain' (· ≤ ·) st.progressLog
  ∧ st.progressLog.getLast?.getD 0 ≤ progressOf total st.terminal.length
  ∧ ∀ p ∈ st.progressLog, ∃ m, m ≤ total ∧ p = progressOf total m

theorem roundStep_inv (oracle : Nat → Nat → CheckOutcome) (total : Nat)
    (st : PollState) (hne : st.pending ≠ []) (h : ProgressInv total st) :
    ProgressInv total (roundStep oracle total st) := by
  obtain ⟨h1, h2, h3, h4⟩ := h
  have hbase : total - st.pending.length = st.terminal.length := by omega
  have hlen := roundStep_lengths oracle st.round st.pending
  have houtsne :
      st.pending.map (fun t => resolvedBool (oracle st.round t)) ≠ [] := by
    simpa [List.map_eq_nil] using hne
  have hcount :
      (st.pending.map (fun t => resolvedBool (oracle st.round t))).count true
        ≤ st.pending.length := by
    calc (st.pending.map (fun t => resolvedBool (oracle st.round t))).count true
        ≤ (st.pending.map (fun t => resolvedBool (oracle st.round t))).length :=
          List.count_le_length _ _
    _ = st.pending.length := by simp
  refine ⟨?_, ?_, ?_, ?_⟩
  · simp only [roundStep, List.length_append]
    rw [hlen.1]
    have := hlen.2
    omega
  · simp only [roundStep]
    refine List.Chain'.append h2 (roundLogAux_chain total _ _ 0) ?_
    intro x hx y hy
    have hxl : x = st.progressLog.getLast?.getD 0 := by
      cases hl : st.progressLog.getLast? with
      | none => simp [hl] at hx
      | some a =>
        simp only [hl, Option.mem_def, Option.some.injEq] at hx
        simp [hl, hx]
    have hhead := roundLogAux_head_le total (total - st.pending.length)
      (st.pending.map (fun t => resolvedBool (oracle st.round t))) 0 y hy
    calc x = st.progressLog.getLast?.getD 0 := hxl
    _ ≤ progressOf total st.terminal.length := h3
    _ = progressOf total (total - st.pending.length + 0) :=
        congrArg (progressOf total) (by omega)
    _ ≤ y := hhead
  · simp only [roundStep]
    rw [List.getLast?_append_of_ne_nil _
      (roundLogAux_ne_nil total (total - st.pending.length) 0 _ houtsne)]
    rw [roundLogAux_getLast? total _ _ 0 houtsne]
    simp only [Option.getD_some, List.length_append]
    rw [hlen.1]
    apply progressOf_mono
    omega
  · simp only [roundStep, List.mem_append]
    intro p hp
    rcases hp with hp | hp
    · exact h4 p hp
    · obtain ⟨m, hm, rfl⟩ := roundLogAux_mem total _ _ 0 p hp
      exact ⟨m, by omega, rfl⟩

theorem pollRounds_inv (oracle : Nat → Nat → CheckOutcome) (total : Nat) :
    ∀ (f : Nat) (st : PollState), ProgressInv total st →
      ProgressInv total (pollRounds oracle total f st) := by
  intro f
  induction f with
  | zero => intro st h; simpa [pollRounds] using h
  | succ f ih =>
    intro st h
    simp only [pollRounds]
    by_cases h1 : st.pending = []
    · simpa [h1] using h
    · by_cases h2 : st.elapsed > MAX_POLL_TIME
      · simp only [h1, h2, if_neg, if_true, if_false]
        obtain ⟨i1, i2, i3, i4⟩ := h
        refine ⟨?_, i2, ?_, i4⟩
        · simp only [List.length_nil, List.length_append, List.length_map]
          omega
        · simp only [List.length_append, List.length_map]
          calc st.progressLog.getLast?.getD 0
              ≤ progressOf total st.terminal.length := i3
          _ ≤ _ := progressOf_mono total (by omega)
      · simp only [h1, h2, if_neg, if_false]
        exact ih _ (roundStep_inv oracle total st h1 h)

/-- C5.  Along every workflow run, the written job-progress sequence is the
progress formula `Math.round(resolved / total · 100)` evaluated at resolved
counts within the ticket total, every value lies in `[0, 100]`, and the
sequence is monotonically non-decreasing — one recomputation per check
batch, plus the initial 0 and the final 100. -/
theorem c5_progress_monotone (key : Bool) (launchOk : Nat → Bool)
    (oracle : Nat → Nat → CheckOutcome) (queries : List Nat) :
    List.Chain' (· ≤ ·)
      ((runAsyncWorkflow key launchOk oracle queries).progressUpdates)
    ∧ ∀ p ∈ (runAsyncWorkflow key launchOk oracle queries).progressUpdates,
        p ≤ 100
        ∧ ∃ c, c ≤ (startAsyncSearches key launchOk queries).length
            ∧ p = progressOf (startAsyncSearches key launchOk queries).length c := by
  by_cases hts : startAsyncSearches key launchOk queries = []
  · constructor
    · simp [runAsyncWorkflow, hts]
    · intro p hp
      simp only [runAsyncWorkflow, hts, if_pos, List.mem_singleton] at hp
      subst hp
      exact ⟨by omega, 0, by simp [hts, progressOf]⟩
  · set tasks := startAsyncSearches key launchOk queries with htasks
    have htot : 1 ≤ tasks.length := by
      cases hc : tasks with
      | nil => exact absurd hc hts
      | cons a l => simp [hc]
    have hinit : ProgressInv tasks.length (initPollState tasks) := by
      refine ⟨by simp [initPollState], by simp [initPollState], ?_, by simp [initPollState]⟩
      simp [initPollState, Nat.zero_le]
    have hinv := pollRounds_inv oracle tasks.length MAX_ROUNDS (initPollState tasks) hinit
    obtain ⟨i1, i2, i3, i4⟩ := hinv
    have hfin : (pollUntilComplete oracle tasks) =
        pollRounds oracle tasks.length MAX_ROUNDS (initPollState tasks) := rfl
    have hterm_le : (pollRounds oracle tasks.length MAX_ROUNDS
        (initPollState tasks)).terminal.length ≤ tasks.length := by omega
    have hupd : (runAsyncWorkflow key launchOk oracle queries).progressUpdates
        = 0 :: (pollRounds oracle tasks.length MAX_ROUNDS
            (initPollState tasks)).progressLog ++ [100] := by
      simp [runAsyncWorkflow, hts, ← htasks, hfin]
    rw [hupd]
    constructor
    · refine List.Chain'.append ?_ (List.chain'_singleton 100) ?_
      · rw [List.chain'_cons']
        exact ⟨fun y _ => Nat.zero_le y, i2⟩
      · intro x hx y hy
        simp only [List.head?_cons, Option.mem_def, Option.some.injEq] at hy
        subst hy
        rw [List.getLast?_cons] at hx
        simp only [Option.mem_def, Option.some.injEq] at hx
        subst hx
        calc (pollRounds oracle tasks.length MAX_ROUNDS
            (initPollState tasks)).progressLog.getLast?.getD 0
            ≤ progressOf tasks.length (pollRounds oracle tasks.length MAX_ROUNDS
                (initPollState tasks)).terminal.length := i3
        _ ≤ 100 := progressOf_le_100 tasks.length hterm_le
    · intro p hp
      simp only [List.mem_append, List.mem_cons, List.mem_singleton] at hp
      rcases hp with (rfl | hp) | (rfl | h0)
      · exact ⟨by omega, 0, Nat.zero_le _, (progressOf_zero tasks.length).symm⟩
      · obtain ⟨m, hm, rfl⟩ := i4 p hp
        exact ⟨progressOf_le_100 tasks.length hm, m, hm, rfl⟩
      · exact ⟨by omega, tasks.length, le_refl _,
          (progressOf_self tasks.length htot).symm⟩
      · simp at h0

/-- C5 witness: the monotonicity statement applied to a concrete job whose
two tickets resolve in different rounds. -/
theorem c5_progress_monotone_witness :
    List.Chain' (· ≤ ·)
      ((runAsyncWorkflow true (fun _ => true)
        (fun r t => if t = 0 ∨ r ≥ 1 then CheckOutcome.complete
                    else CheckOutcome.stillProcessing) [0, 1]).progressUpdates)
    ∧ (100 ∈ (runAsyncWorkflow true (fun _ => true)
        (fun r t => if t = 0 ∨ r ≥ 1 then CheckOutcome.complete
                    else CheckOutcome.stillProcessing) [0, 1]).progressUpdates
        → 100 ≤ 100) := by
  constructor
  · exact (c5_progress_monotone true (fun _ => true)
      (fun r t => if t = 0 ∨ r ≥ 1 then CheckOutcome.complete
                  else CheckOutcome.stillProcessing) [0, 1]).1
  · intro hm
    exact ((c5_progress_monotone true (fun _ => true)
      (fun r t => if t = 0 ∨ r ≥ 1 then CheckOutcome.complete
                  else CheckOutcome.stillProcessing) [0, 1]).2 100 hm).1

/-! ## Claim C9 — fallback output shape: the failing corner -/

/-- Bridge between the Bool `isPrefixOf` and the `<+:` relation. -/
theorem isPrefixOf_eq_true_iff (l1 l2 : List Char) :
    l1.isPrefixOf l2 = true ↔ l1 <+: l2 :=
  List.isPrefixOf_iff_prefix

theorem char_toNat_ofNat (n : Nat) (h : n < 55296) : (Char.ofNat n).toNat = n := by
  have hv : n.isValidChar := Or.inl h
  simp [Char.ofNat, Char.toNat, hv, Char.ofNatAux, UInt32.toNat, UInt32.ofNatCore]

theorem lowerChar_eq_slash {c : Char} (h : lowerChar c = '/') : c = '/' := by
  unfold lowerChar at h
  split at h
  · exfalso
    rename_i hc
    have h2 := congrArg Char.toNat h
    rw [char_toNat_ofNat (c.toNat + 32) (by omega)] at h2
    rw [show ('/' : Char).toNat = 47 from rfl] at h2
    omega
  · exact h

theorem mem_afterLastAt {c : Char} {l : List Char} (h : c ∈ afterLastAt l) :
    c ∈ l := by
  unfold afterLastAt at h
  have h1 := List.mem_reverse.mp h
  have h2 := (List.takeWhile_sublist _).subset h1
  exact List.mem_reverse.mp h2

theorem decimalDigitsAux_digits :
    ∀ (fuel m : Nat), ∀ c ∈ decimalDigitsAux fuel m, isDigitChar c = true := by
  intro fuel
  induction fuel with
  | zero => intro m c hc; simp [decimalDigitsAux] at hc
  | succ fuel ih =>
    intro m c hc
    simp only [decimalDigitsAux] at hc
    split at hc
    · rename_i hm
      simp only [List.mem_singleton] at hc
      subst hc
      simp only [isDigitChar, Bool.and_eq_true, decide_eq_true_iff]
      rw [char_toNat_ofNat (48 + m) (by omega)]
      omega
    · rcases List.mem_append.mp hc with hc | hc
      · exact ih (m / 10) c hc
      · simp only [List.mem_singleton] at hc
        subst hc
        simp only [isDigitChar, Bool.and_eq_true, decide_eq_true_iff]
        rw [char_toNat_ofNat (48 + m % 10) (by omega)]
        omega

/-- IPv4 serializations are digits and dots, so they contain no `/`. -/
theorem serializeIPv4_no_slash (v : Nat) : ∀ c ∈ serializeIPv4 v, c ≠ '/' := by
  have hdig : ∀ (n : Nat), ∀ c ∈ decimalDigits n, c ≠ '/' := by
    intro n c hc heq
    subst heq
    have := decimalDigitsAux_digits (n + 1) n '/' hc
    simp only [isDigitChar, Bool.and_eq_true, decide_eq_true_iff,
      show ('/' : Char).toNat = 47 from rfl] at this
    omega
  intro c hc heq
  subst heq
  unfold serializeIPv4 at hc
  rcases List.mem_append.mp hc with hc | hc
  · exact hdig _ '/' hc rfl
  · rcases List.mem_cons.mp hc with hc | hc
    · simp at hc
    · rcases List.mem_append.mp hc with hc | hc
      · exact hdig _ '/' hc rfl
      · rcases List.mem_cons.mp hc with hc | hc
        · simp at hc
        · rcases List.mem_append.mp hc with hc | hc
          · exact hdig _ '/' hc rfl
          · rcases List.mem_cons.mp hc with hc | hc
            · simp at hc
            · exact hdig _ '/' hc rfl

/-- Every character of a hostname produced by the URL-parser model is a
non-`/` character: the authority is cut at the first `/`, IPv4
serializations are digits and dots, and ASCII lower-casing cannot produce
`/`. -/
theorem urlHostnameL_no_slash {l host : List Char}
    (h : urlHostnameL l = some host) : ∀ c ∈ host, c ≠ '/' := by
  unfold urlHostnameL at h
  dsimp only at h
  split at h
  · exact absurd h (by simp)
  · split at h
    · exact absurd h (by simp)
    · split at h
      · exact absurd h (by simp)
      · split at h
        · split at h
          · exact absurd h (by simp)
          · split at h
            · exact absurd h (by simp)
            · split at h
              · exact absurd h (by simp)
              · split at h
                · split at h
                  · have hh := Option.some.inj h
                    subst hh
                    rename_i v hv
                    exact serializeIPv4_no_slash v
                  · exact absurd h (by simp)
                · have hh := Option.some.inj h
                  subst hh
                  intro c hc hceq
                  subst hceq
                  obtain ⟨d, hd, hdl⟩ := List.mem_map.mp hc
                  have hd1 := (List.takeWhile_sublist _).subset hd
                  have hd2 := mem_afterLastAt hd1
                  have hd3 := List.mem_takeWhile_imp hd2
                  have : d = '/' := lowerChar_eq_slash hdl
                  subst this
                  simp at hd3
        · have hh := Option.some.inj h
          subst hh
          intro c hc
          simp at hc

theorem normalizeUrlL_no_slash (l : List Char) : '/' ∉ normalizeUrlL l := by
  unfold normalizeUrlL
  dsimp only
  split
  · rename_i host heq
    intro hmem
    have hsub : '/' ∈ host := by
      unfold stripWWW at hmem
      split at hmem
      · exact List.drop_subset _ _ hmem
      · exact hmem
    exact urlHostnameL_no_slash heq '/' hsub rfl
  · intro hmem
    unfold fallbackNormalizeL at hmem
    dsimp only at hmem
    have := List.mem_takeWhile_imp hmem
    simp at this

/-- C9 amended.  `normalizeUrl` is total, its output contains no `/` (hence
no path segment and no `http://` / `https://` scheme prefix); but only the
*first* leading `www.` is stripped, so the output can still begin with
`www.` when the input host repeats that prefix (see the counterexample). -/
theorem c9_amended_output_shape (s : String) :
    '/' ∉ (normalizeUrl s).toList
    ∧ "http://".toList.isPrefixOf (normalizeUrl s).toList = false
    ∧ "https://".toList.isPrefixOf (normalizeUrl s).toList = false := by
  have hns : '/' ∉ (normalizeUrl s).toList := normalizeUrlL_no_slash s.toList
  refine ⟨hns, ?_, ?_⟩
  · cases hb : "http://".toList.isPrefixOf (normalizeUrl s).toList
    · rfl
    · exact absurd (((isPrefixOf_eq_true_iff _ _).mp hb).sublist.subset
        (by decide : '/' ∈ "http://".toList)) hns
  · cases hb : "https://".toList.isPrefixOf (normalizeUrl s).toList
    · rfl
    · exact absurd (((isPrefixOf_eq_true_iff _ _).mp hb).sublist.subset
        (by decide : '/' ∈ "https://".toList)) hns

/-- C9 amended, witness at a concrete unparseable input. -/
theorem c9_amended_output_shape_witness :
    '/' ∉ (normalizeUrl "http ://x/y").toList
    ∧ "http://".toList.isPrefixOf (normalizeUrl "http ://x/y").toList = false :=
  ⟨(c9_amended_output_shape "http ://x/y").1,
   (c9_amended_output_shape "http ://x/y").2.1⟩

/-- C9 counterexample.  `normalizeUrl` output *can* begin with `"www."`:
for the input host `www.www.foo.com` only the first `www.` is stripped and
the result `www.foo.com` still starts with `www.`. -/
theorem c9_counterexample_output_starts_with_www :
    normalizeUrl "www.www.foo.com" = "www.foo.com"
    ∧ "www.".toList.isPrefixOf (normalizeUrl "www.www.foo.com").toList = true := by
  exact ⟨rfl, by decide⟩

/-! ## Claim C8 — normalized-host invariance

The claim quantifies over URL variants of one host: optional `http://` or
`https://` scheme, optional leading `www.`, optional path suffix, and letter
case.  The counterexample above shows it fails for hosts that themselves
begin with `www.`; it also fails for bare hosts beginning with the literal
letters `http` (the `startsWith('http')` dispatch sends them to the
non-lower-casing fallback), and for hosts whose last dot-label ends in a
number (WHATWG routes those to the IPv4 parser, so `new URL` throws on
non-IPv4 hosts such as `example.123` and the fallback keeps the original
case).  The amended theorem proves invariance for all other hosts.
-/

end AIRankGenie
